import Mathlib

/-
  Verification development for the tool-calling normalization layer of the
  anything-llm repository: a shallow embedding of the shared native
  tool-calling helpers (`helpers/tooled.js`), the provider adapters
  (`lemonade.js`, `lmStudio`, `openRouter`, `ollama.js`) and the Lemonade
  capability metadata query, together with theorems about the behaviour
  of this code.

  JavaScript values are modelled explicitly: JSON values as the `Json`
  inductive, JS `undefined`/`null`/booleans/strings (as they occur in the
  capability probes) as `JsVal`, absent object fields as `Option`, and JS
  string truthiness via `strTruthy`.  The ambient `JSON.parse` is a
  parameter `parse : String → Option Json` of every function that parses
  (`none` models a parse exception); `JSON.stringify` is modelled by the
  executable `Json.render`.  The `uuid` generator `v4()` is modelled by a
  supply `fresh : Nat → String` indexed by a call counter.
-/

namespace ALLM

/-- A JSON value, doubling as the model of a generic JavaScript value
(string / number / boolean / object / array / null) where the source code
passes such values around. -/
inductive Json where
  | null
  | bool (b : Bool)
  | num (n : Int)
  | str (s : String)
  | arr (elems : List Json)
  | obj (fields : List (String × Json))

mutual

/-- Boolean equality on JSON values (structural). -/
def Json.beq : Json → Json → Bool
  | .null, .null => true
  | .bool a, .bool b => a == b
  | .num a, .num b => a == b
  | .str a, .str b => a == b
  | .arr a, .arr b => Json.beqList a b
  | .obj a, .obj b => Json.beqFields a b
  | _, _ => false

def Json.beqList : List Json → List Json → Bool
  | [], [] => true
  | x :: xs, y :: ys => Json.beq x y && Json.beqList xs ys
  | _, _ => false

def Json.beqFields : List (String × Json) → List (String × Json) → Bool
  | [], [] => true
  | (k, v) :: xs, (l, w) :: ys => k == l && Json.beq v w && Json.beqFields xs ys
  | _, _ => false

end

instance : BEq Json := ⟨Json.beq⟩

mutual

/-- Executable model of `JSON.stringify` on the `Json` type (string
escaping is not modelled; no claim depends on the rendered text). -/
def Json.render : Json → String
  | .null => "null"
  | .bool true => "true"
  | .bool false => "false"
  | .num n => toString n
  | .str s => "\"" ++ s ++ "\""
  | .arr xs => "[" ++ Json.renderList xs ++ "]"
  | .obj fs => "\x7b" ++ Json.renderFields fs ++ "\x7d"

def Json.renderList : List Json → String
  | [] => ""
  | [x] => Json.render x
  | x :: xs => Json.render x ++ "," ++ Json.renderList xs

def Json.renderFields : List (String × Json) → String
  | [] => ""
  | [(k, v)] => "\"" ++ k ++ "\":" ++ Json.render v
  | (k, v) :: fs => "\"" ++ k ++ "\":" ++ Json.render v ++ "," ++ Json.renderFields fs

end

/-- JS property access `j[k]` on an object value; `none` models `undefined`. -/
def Json.get (j : Json) (k : String) : Option Json :=
  match j with
  | .obj fs => fs.lookup k
  | _ => none

/-- String-valued property access: `some s` when `j[k]` is a JS string. -/
def Json.getStr (j : Json) (k : String) : Option String :=
  match j.get k with
  | some (.str s) => some s
  | _ => none

/-- JS truthiness of an optional string: `undefined` and `""` are falsy. -/
def strTruthy : Option String → Bool
  | none => false
  | some s => s ≠ ""

/-- The JS idiom `typeof x === "string" ? x : JSON.stringify(x)` used by
`formatMessagesForTools` for message content and call arguments. -/
def jsToString : Json → String
  | .str s => s
  | j => j.render

/-- Modelled from the spec: `safeJsonParse` (`server/utils/http`, not under
src/) parses a string as JSON and returns the given fallback value on a
parse failure.  The ambient parser is the `parse` parameter; note that the
JS value `JSON.parse("null")` and a `null` fallback coincide, exactly as
they do in JavaScript. -/
def safeJsonParse (parse : String → Option Json) (s : String) (fallback : Json) : Json :=
  (parse s).getD fallback

/-- The `originalFunctionCall` metadata carried by a `function`-role
message: `{id?, name, arguments}` (arguments may be a string or an object). -/
structure OrigCall where
  id : Option String := none
  name : String := ""
  arguments : Json := Json.null

/-- An entry of an assistant message `tool_calls` array in the OpenAI tools
format: `{id, type: "function", function: {name, arguments}}` (the constant
`type` tag is left implicit). -/
structure ToolCallEntry where
  id : String
  name : Option String
  arguments : String

/-- A chat message.  The one record type serves both the aibitat history
shape (role system/user/assistant/function with `originalFunctionCall`)
and the formatted OpenAI tools shape (assistant `tool_calls` plus
role:"tool" messages); absent fields are `none`. -/
structure Msg where
  role : String
  content : Json := Json.null
  name : Option String := none
  originalFunctionCall : Option OrigCall := none
  tool_calls : Option (List ToolCallEntry) := none
  tool_call_id : Option String := none
  reasoning_content : Option String := none

/-- Options of `formatMessagesForTools` (`{injectReasoningContent?: boolean}`). -/
structure FormatOptions where
  injectReasoningContent : Bool := false

/-- The assistant message synthesized for a `function`-role message whose
`originalFunctionCall` carries an id (tooled.js lines 57-75). -/
def mkAssistantCallMsg (opts : FormatOptions) (i : String) (nm : String) (args : Json) : Msg :=
  { role := "assistant"
    content := Json.null
    reasoning_content := if opts.injectReasoningContent then some "" else none
    tool_calls := some [{ id := i, name := some nm, arguments := jsToString args }] }

/-- The tool-result message synthesized for a `function`-role message
(tooled.js lines 76-83 and 101-108). -/
def mkToolResultMsg (i : String) (content : Json) : Msg :=
  { role := "tool", tool_call_id := some i, content := Json.str (jsToString content) }

/-- The two messages synthesized for a `function`-role message whose
`originalFunctionCall` has no (truthy) id: a fresh `call_<uuid>` id is
generated for both (tooled.js lines 84-109). -/
def formatNoId (opts : FormatOptions) (fresh : Nat → String) (ctr : Nat) (m : Msg) : List Msg :=
  let toolCallId := "call_" ++ fresh ctr
  [ { role := "assistant"
      content := Json.null
      reasoning_content := if opts.injectReasoningContent then some "" else none
      tool_calls := some [{ id := toolCallId, name := m.name, arguments := "\x7b\x7d" }] },
    mkToolResultMsg toolCallId m.content ]

/-- Main loop of `formatMessagesForTools` (tooled.js lines 48-122): the
accumulator is the `formattedMessages` array (its last element is the
`prevMsg` the source inspects) and `ctr` counts the `v4()` calls made so
far for the fresh-id branch. -/
def formatMessagesForToolsAux (opts : FormatOptions) (fresh : Nat → String) :
    List Msg → List Msg → Nat → List Msg
  | acc, [], _ => acc
  | acc, m :: rest, ctr =>
    if m.role = "function" then
      match m.originalFunctionCall with
      | some ofc =>
        if strTruthy ofc.id then
          let i := ofc.id.getD ""
          let needAssistant : Bool :=
            match acc.getLast? with
            | none => true
            | some p => !(p.role == "assistant" && p.tool_calls.isSome)
          let acc1 := if needAssistant then
              acc ++ [mkAssistantCallMsg opts i ofc.name ofc.arguments]
            else acc
          formatMessagesForToolsAux opts fresh (acc1 ++ [mkToolResultMsg i m.content]) rest ctr
        else
          formatMessagesForToolsAux opts fresh (acc ++ formatNoId opts fresh ctr m) rest (ctr + 1)
      | none =>
        formatMessagesForToolsAux opts fresh (acc ++ formatNoId opts fresh ctr m) rest (ctr + 1)
    else if opts.injectReasoningContent && m.role == "assistant" && m.reasoning_content.isNone then
      formatMessagesForToolsAux opts fresh (acc ++ [{ m with reasoning_content := some "" }]) rest ctr
    else
      formatMessagesForToolsAux opts fresh (acc ++ [m]) rest ctr

/-- Embedding of `formatMessagesForTools(messages, options)` (tooled.js
lines 48-122), with the `v4()` uuid supply made explicit. -/
def formatMessagesForTools (fresh : Nat → String) (messages : List Msg)
    (options : FormatOptions) : List Msg :=
  formatMessagesForToolsAux options fresh [] messages 0

/-- An aibitat function (tool) definition. -/
structure ToolDef where
  name : String
  description : String := ""
  parameters : Json := Json.obj []

/-- An OpenAI-format tool entry `{type: "function", function: {...}}`. -/
structure Tool where
  name : String
  description : String
  parameters : Json

/-- Embedding of `formatFunctionsToTools` (tooled.js lines 26-36); the JS
non-array guard is not representable for a typed list argument. -/
def formatFunctionsToTools (functions : List ToolDef) : List Tool :=
  if functions.length = 0 then []
  else functions.map fun f =>
    { name := f.name, description := f.description, parameters := f.parameters }

/-- The body of a `client.chat.completions.create` request as built by the
native drivers; `tools = none` means the `tools` field is omitted entirely. -/
structure ChatRequest where
  model : String
  stream : Bool
  messages : List Msg
  tools : Option (List Tool)

/-- The request built by `tooledStream` (tooled.js lines 149-154). -/
def tooledStreamRequest (fresh : Nat → String) (model : String) (messages : List Msg)
    (functions : List ToolDef) (options : FormatOptions) : ChatRequest :=
  let tools := formatFunctionsToTools functions
  { model := model
    stream := true
    messages := formatMessagesForTools fresh messages options
    tools := if tools.length > 0 then some tools else none }

/-- The request built by `tooledComplete` (tooled.js lines 245-250). -/
def tooledCompleteRequest (fresh : Nat → String) (model : String) (messages : List Msg)
    (functions : List ToolDef) (options : FormatOptions) : ChatRequest :=
  let tools := formatFunctionsToTools functions
  { model := model
    stream := false
    messages := formatMessagesForTools fresh messages options
    tools := if tools.length > 0 then some tools else none }

/-- The `function` part of a streamed tool-call fragment
(`toolCall.function?.name`, `toolCall.function?.arguments`). -/
structure DeltaFn where
  name : Option String := none
  arguments : Option String := none

/-- One element of `choice.delta.tool_calls` in a streamed chunk. -/
structure DeltaToolCall where
  index : Option Nat := none
  id : Option String := none
  function : Option DeltaFn := none

/-- A per-index tool-call accumulator (`toolCallsByIndex[idx]`). -/
structure ToolCallAcc where
  id : String
  name : String
  arguments : String

/-- Lookup in the `toolCallsByIndex` JS object, modelled as an association
list keyed by the numeric index. -/
def lookupIdx : List (Nat × ToolCallAcc) → Nat → Option ToolCallAcc
  | [], _ => none
  | (k, v) :: rest, i => if k = i then some v else lookupIdx rest i

/-- Assignment `toolCallsByIndex[idx] = v` (replace in place, or append). -/
def updateIdx : List (Nat × ToolCallAcc) → Nat → ToolCallAcc → List (Nat × ToolCallAcc)
  | [], i, v => [(i, v)]
  | (k, w) :: rest, i, v =>
    if k = i then (i, v) :: rest else (k, w) :: updateIdx rest i v

/-- The value of `Math.min(...Object.keys(toolCallsByIndex).map(Number))`:
the least key of the accumulator map, `none` when the map is empty. -/
def minKey : List (Nat × ToolCallAcc) → Option Nat
  | [] => none
  | (k, _) :: rest =>
    match minKey rest with
    | none => some k
    | some k2 => some (min k k2)

/-- Processing of one element of `choice.delta.tool_calls` (tooled.js lines
177-202): a fragment with a truthy id initializes the accumulator at its
index; an id-less fragment appends truthy name/arguments pieces to an
existing accumulator and is dropped when no accumulator exists. -/
def applyDeltaToolCall (acc : List (Nat × ToolCallAcc)) (tc : DeltaToolCall) :
    List (Nat × ToolCallAcc) :=
  let idx := tc.index.getD 0
  if strTruthy tc.id then
    updateIdx acc idx
      { id := tc.id.getD ""
        name := (tc.function.bind DeltaFn.name).getD ""
        arguments := (tc.function.bind DeltaFn.arguments).getD "" }
  else
    match lookupIdx acc idx with
    | none => acc
    | some a =>
      let a1 := if strTruthy (tc.function.bind DeltaFn.name) then
          { a with name := a.name ++ (tc.function.bind DeltaFn.name).getD "" }
        else a
      let a2 := if strTruthy (tc.function.bind DeltaFn.arguments) then
          { a1 with arguments := a1.arguments ++ (tc.function.bind DeltaFn.arguments).getD "" }
        else a1
      updateIdx acc idx a2

/-- The `delta` of `chunk.choices[0]` of a streamed chunk. -/
structure StreamDelta where
  content : Option String := none
  tool_calls : Option (List DeltaToolCall) := none

/-- Mutable state of the `for await` loop of `tooledStream`. -/
structure StreamState where
  textResponse : String
  toolCallsByIndex : List (Nat × ToolCallAcc)

/-- Processing of one streamed chunk (tooled.js lines 163-204); a `none`
chunk models `!chunk?.choices?.[0]` and is skipped. -/
def processChunk (st : StreamState) (chunk : Option StreamDelta) : StreamState :=
  match chunk with
  | none => st
  | some d =>
    let st1 := if strTruthy d.content then
        { st with textResponse := st.textResponse ++ d.content.getD "" }
      else st
    match d.tool_calls with
    | none => st1
    | some tcs => { st1 with toolCallsByIndex := tcs.foldl applyDeltaToolCall st1.toolCallsByIndex }

/-- A structured tool call as returned to the agent framework. -/
structure ToolCall where
  id : String
  name : String
  arguments : Json

/-- The result shape of `tooledStream`. -/
structure StreamResult where
  textResponse : String
  functionCall : Option ToolCall

/-- End-of-stream selection (tooled.js lines 206-214): the accumulator with
the lowest index becomes the returned call, its accumulated arguments
string parsed by `safeJsonParse` with fallback `{}`. -/
def selectFirstToolCall (parse : String → Option Json)
    (m : List (Nat × ToolCallAcc)) : Option ToolCall :=
  match minKey m with
  | none => none
  | some k =>
    match lookupIdx m k with
    | none => none
    | some a =>
      some { id := a.id, name := a.name
             arguments := safeJsonParse parse a.arguments (Json.obj []) }

/-- Embedding of `tooledStream` (tooled.js lines 137-220).  The network
client is the `chunksOf` parameter mapping the issued request to the list
of streamed chunks; event emission has no effect on the returned value and
is not modelled. -/
def tooledStream (parse : String → Option Json) (fresh : Nat → String)
    (chunksOf : ChatRequest → List (Option StreamDelta))
    (model : String) (messages : List Msg) (functions : List ToolDef)
    (options : FormatOptions) : StreamResult :=
  let req := tooledStreamRequest fresh model messages functions options
  let final := (chunksOf req).foldl processChunk
    { textResponse := "", toolCallsByIndex := [] }
  { textResponse := final.textResponse
    functionCall := selectFirstToolCall parse final.toolCallsByIndex }

/-- The `function` member of a non-streamed response tool call. -/
structure RespFn where
  name : String
  arguments : String

/-- One entry of `completion.tool_calls` in a non-streamed response. -/
structure RespToolCall where
  id : String
  function : RespFn

/-- The `response.choices[0].message` of a non-streamed response. -/
structure RespMessage where
  content : Option String := none
  tool_calls : Option (List RespToolCall) := none

/-- A non-streamed chat response (`message` plus `usage`). -/
structure ChatResponse where
  message : RespMessage
  usage : Json := Json.null

/-- The result shape of `tooledComplete`; absent JS keys are `none`. -/
structure CompleteResult where
  textResponse : Option String := none
  functionCall : Option ToolCall := none
  retryWithError : Option Msg := none
  cost : Int := 0

/-- Embedding of `tooledComplete` (tooled.js lines 234-291).  The network
client is the `respOf` parameter mapping the issued request to the
response.  `safeJsonParse(arguments, null)` followed by the
`functionArgs === null` test is modelled by matching the parsed value
against `Json.null`, which conflates a parse failure with a successful
parse of the JSON text "null", exactly as the JS `===` comparison does. -/
def tooledComplete (parse : String → Option Json) (fresh : Nat → String)
    (respOf : ChatRequest → ChatResponse)
    (model : String) (messages : List Msg) (functions : List ToolDef)
    (getCostFn : Json → Int) (options : FormatOptions) : CompleteResult :=
  let req := tooledCompleteRequest fresh model messages functions options
  let response := respOf req
  let completion := response.message
  let cost := getCostFn response.usage
  match completion.tool_calls with
  | some (toolCall :: _) =>
    match safeJsonParse parse toolCall.function.arguments Json.null with
    | Json.null =>
      { textResponse := none
        retryWithError := some
          { role := "function"
            name := some toolCall.function.name
            content := Json.str ("Failed to parse tool call arguments as JSON. Raw arguments: "
              ++ toolCall.function.arguments)
            originalFunctionCall := some
              { id := some toolCall.id
                name := toolCall.function.name
                arguments := Json.str toolCall.function.arguments } }
        cost := cost }
    | functionArgs =>
      { textResponse := none
        functionCall := some
          { id := toolCall.id, name := toolCall.function.name, arguments := functionArgs }
        cost := cost }
  | _ => { textResponse := completion.content, cost := cost }

/-- Embedding of the native branch of `LemonadeProvider.complete`
(lemonade.js lines 172-185, same shape in lmStudio/deepSeek/openRouter):
when `tooledComplete` returns `retryWithError`, `complete` re-invokes
itself on the history extended with the synthetic message, with no cap.
The `fuel` argument counts remaining `tooledComplete` calls; `none` means
the recursion was still running when the fuel ran out. -/
def lemonadeCompleteNative (parse : String → Option Json) (fresh : Nat → String)
    (respOf : ChatRequest → ChatResponse) (model : String)
    (functions : List ToolDef) : Nat → List Msg → Option CompleteResult
  | 0, _ => none
  | fuel + 1, messages =>
    let result := tooledComplete parse fresh respOf model messages functions (fun _ => 0) {}
    match result.retryWithError with
    | some retryMsg =>
      lemonadeCompleteNative parse fresh respOf model functions fuel (messages ++ [retryMsg])
    | none => some result

/-- An error value thrown by the OpenAI client, with its `instanceof`
classification flags (in the OpenAI SDK the three specific error classes
are subclasses of `APIError`, so their values also satisfy
`instanceof OpenAI.APIError`). -/
structure ErrVal where
  msg : String
  isAuthenticationError : Bool := false
  isRateLimitError : Bool := false
  isInternalServerError : Bool := false
  isAPIError : Bool := false

/-- What a provider `catch` block throws onward. -/
inductive ThrownErr where
  | rethrown (e : ErrVal)
  | retryError (msg : String)

/-- Embedding of the catch block shared verbatim by the native paths of
`stream` and `complete` in `lemonade.js` (lines 140-151 and 186-196) and
the other tooled providers: an `AuthenticationError` is rethrown
unchanged; a `RateLimitError`, `InternalServerError` or `APIError` is
wrapped into `RetryError(error.message)`; anything else is rethrown
unchanged.  Every branch throws; the layer performs no retry of its own. -/
def providerNativeCatch (e : ErrVal) : ThrownErr :=
  if e.isAuthenticationError then .rethrown e
  else if e.isRateLimitError || e.isInternalServerError || e.isAPIError then
    .retryError e.msg
  else .rethrown e

/-- Which driver a provider adapter selects for a call. -/
inductive AgentPath where
  | native
  | untooled
deriving DecidableEq

/-- Embedding of the dispatch of `LemonadeProvider.stream` (lemonade.js
lines 113-126): `useNative = functions.length > 0 && await
this.supportsNativeToolCalling()`, falling back to the UnTooled path when
false.  `supports` is the awaited probe result. -/
def lemonadeStreamPath (functions : List ToolDef) (supports : Bool) : AgentPath :=
  let useNative := decide (functions.length > 0) && supports
  if !useNative then .untooled else .native

/-- Embedding of the dispatch of `LMStudioProvider.complete` (lmStudio
provider lines 141-152): identical selection logic. -/
def lmStudioCompletePath (functions : List ToolDef) (supports : Bool) : AgentPath :=
  let useNative := decide (functions.length > 0) && supports
  if !useNative then .untooled else .native

/-- A JavaScript primitive value as it occurs in the capability probes:
`undef` models `undefined`, `nullv` models `null`. -/
inductive JsVal where
  | undef
  | nullv
  | bool (b : Bool)
  | str (s : String)
deriving DecidableEq

/-- JS truthiness of a `JsVal`. -/
def JsVal.truthy : JsVal → Bool
  | .undef => false
  | .nullv => false
  | .bool b => b
  | .str s => s ≠ ""

/-- The JS `String.prototype.includes(sub)` test. -/
def strIncludes (s sub : String) : Bool :=
  (List.range (s.toList.length + 1)).any fun k =>
    List.isPrefixOf sub.toList (s.toList.drop k)

/-- The capability record returned by `LemonadeLLM.getModelCapabilities`. -/
structure ModelCapabilities where
  tools : JsVal
  reasoning : JsVal
  imageGeneration : JsVal
  vision : JsVal
deriving DecidableEq

/-- Embedding of `LemonadeLLM.getModelCapabilities` (AiProviders/lemonade
index.js): on a successful `models.retrieve` the labels list (defaulted to
`[]` when absent) is inspected for capability labels; on any error the
record degrades to all-"unknown" and nothing is thrown.  `retrieveResult`
models the awaited `client.models.retrieve(this.model)` outcome. -/
def getModelCapabilities (retrieveResult : Except Unit (Option (List String))) :
    ModelCapabilities :=
  match retrieveResult with
  | .ok labelsOpt =>
    let labels := labelsOpt.getD []
    { tools := .bool (labels.contains "tool-calling")
      reasoning := .bool (labels.contains "reasoning")
      imageGeneration := .str "unknown"
      vision := .bool (labels.contains "vision") }
  | .error _ =>
    { tools := .str "unknown", reasoning := .str "unknown"
      imageGeneration := .str "unknown", vision := .str "unknown" }

/-- One observable step of a capability probe: the value returned to the
caller, the `_supportsToolCalling` cache after the call, and whether the
model-capability metadata endpoint was queried during the call. -/
structure ProbeStep where
  answer : JsVal
  cache : JsVal
  queried : Bool
deriving DecidableEq

/-- Embedding of `LemonadeProvider.supportsNativeToolCalling` (lemonade.js
lines 63-81).  `env` is `process.env.PROVIDER_SUPPORTS_NATIVE_TOOL_CALLING`
(`none` = unset, making `env?.includes(...)` yield `undefined`), `capQuery`
is the outcome of the metadata query, and `cache` is the current
`_supportsToolCalling` field (initialized to `null` in the constructor). -/
def lemonadeSupportsNativeToolCalling (env : Option String)
    (capQuery : Except Unit (Option (List String))) (cache : JsVal) : ProbeStep :=
  if cache ≠ JsVal.nullv then { answer := cache, cache := cache, queried := false }
  else
    let flag : JsVal := match env with
      | none => .undef
      | some s => .bool (strIncludes s "lemonade")
    if flag.truthy then { answer := .bool true, cache := .bool true, queried := false }
    else
      let caps := getModelCapabilities capQuery
      let v := JsVal.bool (caps.tools == JsVal.bool true)
      { answer := v, cache := v, queried := true }

/-- Embedding of `OpenRouterProvider.supportsNativeToolCalling` (openRouter
provider lines 223-238): only the env allow-list flag is consulted — there
is no metadata query — and when the env variable is unset the computed
value is the JS `undefined`, which is then cached and returned. -/
def openrouterSupportsNativeToolCalling (env : Option String) (cache : JsVal) : ProbeStep :=
  if cache ≠ JsVal.nullv then { answer := cache, cache := cache, queried := false }
  else
    let v : JsVal := match env with
      | none => .undef
      | some s => .bool (strIncludes s "openrouter")
    { answer := v, cache := v, queried := false }

/-- A parsed emulation-path tool call `{name, arguments}`. -/
structure FuncCall where
  name : String
  arguments : Json

/-- Modelled from the spec: the per-session `Deduplicator` (an aibitat
utility, not under src/) — "a per-session tracker recording
(name, normalized-arguments) pairs already executed"; its session-level
"runs" set is what `deduplicator.reset("runs")` clears.  The time-based
cooldown window for MCP tools is not representable and is abstracted away. -/
structure Deduplicator where
  runs : List (String × Json)

/-- Modelled from the spec: a call matching a previously recorded
(name, arguments) pair "is rejected as a duplicate with a descriptive
reason". -/
def Deduplicator.isDuplicate (d : Deduplicator) (name : String) (args : Json) :
    Bool × String :=
  if d.runs.contains (name, args) then
    (true, "this exact tool has already been called with these arguments in this session")
  else (false, "")

/-- Modelled from the spec: `trackRun` records an executed
(name, arguments) pair in the session tracker. -/
def Deduplicator.trackRun (d : Deduplicator) (name : String) (args : Json) : Deduplicator :=
  ⟨d.runs ++ [(name, args)]⟩

/-- Modelled from the spec: `deduplicator.reset("runs")` — "the
session-level last-run dedup set is reset once a full turn completes
without further tool calls". -/
def Deduplicator.resetRuns (_ : Deduplicator) : Deduplicator :=
  ⟨[]⟩

/-- The `required` list of a JSON-schema-like parameters object. -/
def requiredKeys (params : Json) : List String :=
  match params.get "required" with
  | some (.arr l) => l.filterMap fun v =>
      match v with
      | .str s => some s
      | _ => none
  | _ => []

/-- The declared property names of a JSON-schema-like parameters object. -/
def propertyKeys (params : Json) : List String :=
  match params.get "properties" with
  | some (.obj fs) => fs.map Prod.fst
  | _ => []

/-- Modelled from the spec: `validFuncCall` from the UnTooled helper
(untooled.js, not under src/) — the call's "name must match a declared
tool; declared-required arguments must be present; extra/missing fields
reported as an invalid-call reason". -/
def validFuncCall (call : Json) (functions : List ToolDef) : Bool × String :=
  match call.getStr "name" with
  | none => (false, "the call carries no function name")
  | some nm =>
    match functions.find? (fun f => f.name == nm) with
    | none => (false, "the model called a function that is not defined")
    | some t =>
      match call.get "arguments" with
      | some (.obj fs) =>
        let ks := fs.map Prod.fst
        if (requiredKeys t.parameters).all (fun r => ks.contains r)
            && ks.all (fun k => (propertyKeys t.parameters).contains k) then (true, "")
        else (false, "the call has missing or extra argument fields")
      | _ => (false, "the call arguments are not an object")

/-- The `message` member of one streamed Ollama chunk (`content` is always
a string in practice; `thinking` may be absent). -/
structure OllamaChunkMsg where
  content : String := ""
  thinking : Option String := none

/-- The `textResponse` accumulated by the first loop of
`OllamaProvider.streamingFunctionCall` (ollama.js lines 161-189): thinking
tokens are not accumulated, non-empty content tokens are.  A `none` chunk
models a chunk without a `message` property and is skipped. -/
def ollamaStreamText (chunks : List (Option OllamaChunkMsg)) : String :=
  chunks.foldl
    (fun acc c =>
      match c with
      | none => acc
      | some m =>
        if strTruthy m.thinking then acc
        else if m.content.length > 0 then acc ++ m.content
        else acc)
    ""

/-- The `completion.content` accumulated by the plain-completion loop of
`OllamaProvider.stream` (ollama.js lines 379-407), including its
`<think>`-tag wrapping of reasoning tokens and the fact that the loop
appends the current `token` on every chunk, even when neither branch
updated it.  State: (accumulated content, reasoningText, token). -/
def ollamaFollowupText (chunks : List (Option OllamaChunkMsg)) : String :=
  (chunks.foldl
    (fun (st : String × String × String) c =>
      match c with
      | none => st
      | some m =>
        let acc := st.1
        let rt := st.2.1
        let tok := st.2.2
        if strTruthy m.thinking then
          let tk := m.thinking.getD ""
          if rt.length = 0 then
            (acc ++ ("<think>" ++ tk), "<think>" ++ tk, "<think>" ++ tk)
          else (acc ++ tk, rt ++ tk, tk)
        else if m.content.length > 0 then
          if rt.length > 0 then
            (acc ++ ("</think>" ++ m.content), "", "</think>" ++ m.content)
          else (acc ++ m.content, rt, m.content)
        else (acc ++ tok, rt, tok))
    ("", "", "")).1

/-- Embedding of `OllamaProvider.streamingFunctionCall` (ollama.js lines
137-228), with the model's streamed chunks supplied as the `chunks`
oracle.  Returns `none` when the function produces no usable object (the
source returns `null` when the last user/assistant history message is not
a user turn); otherwise `(toolCall?, text?)`.  The `call === null` test
after `safeJsonParse(textResponse, null)` is the `Json.null` match. -/
def ollamaStreamingFunctionCall (parse : String → Option Json) (d : Deduplicator)
    (messages : List Msg) (functions : List ToolDef)
    (chunks : List (Option OllamaChunkMsg)) : Option (Option FuncCall × Option String) :=
  let history := messages.filter fun m => m.role == "user" || m.role == "assistant"
  match history.getLast? with
  | none => none
  | some lastMsg =>
    if lastMsg.role ≠ "user" then none
    else
      let textResponse := ollamaStreamText chunks
      match safeJsonParse parse textResponse Json.null with
      | Json.null => some (none, some textResponse)
      | call =>
        if !(validFuncCall call functions).1 then some (none, none)
        else
          let nm := (call.getStr "name").getD ""
          let args := (call.get "arguments").getD Json.null
          if (d.isDuplicate nm args).1 then some (none, none)
          else some (some ⟨nm, args⟩, none)

/-- The value returned to the orchestrator by one UnTooled-path
`OllamaProvider.stream` turn. -/
inductive OllamaTurnResult where
  | functionCall (name : String) (arguments : Json)
  | textResponse (t : String)

/-- Embedding of the UnTooled branch of `OllamaProvider.stream` (ollama.js
lines 306-414), threading the deduplicator state explicitly.  `toolChunks`
is the model's streamed output for the tool-call prompt and
`followupChunks` the streamed output of the plain completion that runs
when no usable content was produced.  A valid fresh tool call is tracked
in the dedup set and returned without resetting it; every turn that ends
in a text response resets the "runs" set.  `none` models the TypeError the
source would raise when `streamingFunctionCall` returns `null`. -/
def ollamaUntooledStreamTurn (parse : String → Option Json) (d : Deduplicator)
    (messages : List Msg) (functions : List ToolDef)
    (toolChunks followupChunks : List (Option OllamaChunkMsg)) :
    Option (OllamaTurnResult × Deduplicator) :=
  if functions.length > 0 then
    match ollamaStreamingFunctionCall parse d messages functions toolChunks with
    | none => none
    | some (some call, _) =>
      some (.functionCall call.name call.arguments, d.trackRun call.name call.arguments)
    | some (none, text) =>
      let content := text.getD ""
      if content.length = 0 then
        some (.textResponse (ollamaFollowupText followupChunks), d.resetRuns)
      else some (.textResponse content, d.resetRuns)
  else
    some (.textResponse (ollamaFollowupText followupChunks), d.resetRuns)

/-- C5: for the empty tool-definition input, `formatFunctionsToTools`
returns the empty collection, and the requests built by both native
drivers (`tooledStream` and `tooledComplete`) omit the `tools` field
entirely (`tools = none`) rather than sending an empty list.  (The JS
"non-array input" case is not representable for a typed list argument.) -/
theorem c5_empty_tools_omitted (fresh : Nat → String) (model : String)
    (messages : List Msg) (options : FormatOptions) :
    formatFunctionsToTools [] = [] ∧
    (tooledStreamRequest fresh model messages [] options).tools = none ∧
    (tooledCompleteRequest fresh model messages [] options).tools = none := by
  refine ⟨rfl, ?_, ?_⟩ <;>
    simp [tooledStreamRequest, tooledCompleteRequest, formatFunctionsToTools]

/-- C6: for the embedded provider adapters (`LemonadeProvider.stream`,
`LMStudioProvider.complete`), the native tool-calling path is taken iff
the supplied function list is non-empty and the capability probe resolved
to true; in particular every tool-free request takes the UnTooled path. -/
theorem c6_native_path_iff (functions : List ToolDef) (supports : Bool) :
    (lemonadeStreamPath functions supports = AgentPath.native ↔
      (functions ≠ [] ∧ supports = true)) ∧
    (lmStudioCompletePath functions supports = AgentPath.native ↔
      (functions ≠ [] ∧ supports = true)) ∧
    (functions = [] →
      lemonadeStreamPath functions supports = AgentPath.untooled ∧
      lmStudioCompletePath functions supports = AgentPath.untooled) := by
  cases functions <;> cases supports <;>
    simp [lemonadeStreamPath, lmStudioCompletePath]

/-- Witness for C6 at concrete inputs: a tool-free request takes the
UnTooled path even when the probe is true, and a one-tool request with a
positive probe takes the native path. -/
theorem c6_native_path_iff_witness :
    lemonadeStreamPath [] true = AgentPath.untooled ∧
    lmStudioCompletePath [] true = AgentPath.untooled ∧
    lemonadeStreamPath [{ name := "search" }] true = AgentPath.native :=
  ⟨((c6_native_path_iff [] true).2.2 rfl).1,
   ((c6_native_path_iff [] true).2.2 rfl).2,
   (c6_native_path_iff [{ name := "search" }] true).1.mpr ⟨List.cons_ne_nil _ _, rfl⟩⟩

/-- C8: the shared native-path catch block rethrows an authentication
error unchanged, wraps a rate-limit / internal-server / generic API error
into the single RetryError type (carrying the error message), and rethrows
everything else unchanged; every branch throws, so the layer performs no
recovery or retry of its own. -/
theorem c8_error_taxonomy (e : ErrVal) :
    (e.isAuthenticationError = true → providerNativeCatch e = ThrownErr.rethrown e) ∧
    (e.isAuthenticationError = false →
      (e.isRateLimitError || e.isInternalServerError || e.isAPIError) = true →
      providerNativeCatch e = ThrownErr.retryError e.msg) ∧
    (e.isAuthenticationError = false →
      (e.isRateLimitError || e.isInternalServerError || e.isAPIError) = false →
      providerNativeCatch e = ThrownErr.rethrown e) := by
  refine ⟨fun h1 => ?_, fun h1 h2 => ?_, fun h1 h2 => ?_⟩
  · simp [providerNativeCatch, h1]
  · simp [providerNativeCatch, h1, h2]
  · simp [providerNativeCatch, h1, h2]

/-- Witness for C8 at concrete errors: an authentication error (itself an
APIError subclass) is rethrown, a rate-limit error becomes a RetryError
with the same message, and a non-API error is rethrown unchanged. -/
theorem c8_error_taxonomy_witness :
    providerNativeCatch { msg := "bad key", isAuthenticationError := true, isAPIError := true }
      = ThrownErr.rethrown { msg := "bad key", isAuthenticationError := true, isAPIError := true } ∧
    providerNativeCatch { msg := "rate limited", isRateLimitError := true, isAPIError := true }
      = ThrownErr.retryError "rate limited" ∧
    providerNativeCatch { msg := "ECONNREFUSED" }
      = ThrownErr.rethrown { msg := "ECONNREFUSED" } :=
  ⟨(c8_error_taxonomy _).1 rfl,
   (c8_error_taxonomy _).2.1 rfl rfl,
   (c8_error_taxonomy _).2.2 rfl rfl⟩

/-- C7 counterexample: with the env allow-list variable unset and an
unresolved cache, `OpenRouterProvider.supportsNativeToolCalling` returns
(and caches) the JS `undefined` — which is none of `true`, `false` or the
string `"unknown"` — and consults no metadata endpoint at all, so the
probe is not the claimed tri-state with an env-then-metadata-then-false
resolution. -/
theorem c7_probe_counterexample :
    (openrouterSupportsNativeToolCalling none JsVal.nullv).answer = JsVal.undef ∧
    JsVal.undef ≠ JsVal.bool true ∧
    JsVal.undef ≠ JsVal.bool false ∧
    JsVal.undef ≠ JsVal.str "unknown" ∧
    (openrouterSupportsNativeToolCalling none JsVal.nullv).queried = false :=
  ⟨rfl, by decide, by decide, by decide, rfl⟩

/-- C7 amended: both probes cache their first resolution (any non-null
cache is returned unchanged on a later call without a metadata query, and
the first call always leaves a non-null cache).  Lemonade resolves the env
allow-list flag first (short-circuiting the query), then the model
capability labels (`tools === true`), so that a failed metadata query
("unknown" capability) defaults the answer to `false`; its answer is
always a boolean.  OpenRouter consults only the env flag — never the
metadata endpoint — and when the env variable is unset it returns and
caches the falsy JS `undefined` rather than `false` or `"unknown"`. -/
theorem c7_probe_cached_resolution :
    (∀ c env capQuery, c ≠ JsVal.nullv →
      lemonadeSupportsNativeToolCalling env capQuery c =
        { answer := c, cache := c, queried := false }) ∧
    (∀ c env, c ≠ JsVal.nullv →
      openrouterSupportsNativeToolCalling env c =
        { answer := c, cache := c, queried := false }) ∧
    (∀ env capQuery,
      (lemonadeSupportsNativeToolCalling env capQuery JsVal.nullv).cache ≠ JsVal.nullv) ∧
    (∀ env, (openrouterSupportsNativeToolCalling env JsVal.nullv).cache ≠ JsVal.nullv) ∧
    (∀ s capQuery, strIncludes s "lemonade" = true →
      lemonadeSupportsNativeToolCalling (some s) capQuery JsVal.nullv =
        { answer := JsVal.bool true, cache := JsVal.bool true, queried := false }) ∧
    (∀ s capQuery, strIncludes s "lemonade" = false →
      lemonadeSupportsNativeToolCalling (some s) capQuery JsVal.nullv =
        { answer := JsVal.bool ((getModelCapabilities capQuery).tools == JsVal.bool true)
          cache := JsVal.bool ((getModelCapabilities capQuery).tools == JsVal.bool true)
          queried := true }) ∧
    (∀ capQuery,
      lemonadeSupportsNativeToolCalling none capQuery JsVal.nullv =
        { answer := JsVal.bool ((getModelCapabilities capQuery).tools == JsVal.bool true)
          cache := JsVal.bool ((getModelCapabilities capQuery).tools == JsVal.bool true)
          queried := true }) ∧
    ((getModelCapabilities (Except.error ())).tools = JsVal.str "unknown" ∧
      (JsVal.str "unknown" == JsVal.bool true) = false) ∧
    (∀ s, strIncludes s "openrouter" = true →
      openrouterSupportsNativeToolCalling (some s) JsVal.nullv =
        { answer := JsVal.bool true, cache := JsVal.bool true, queried := false }) ∧
    (∀ s, strIncludes s "openrouter" = false →
      openrouterSupportsNativeToolCalling (some s) JsVal.nullv =
        { answer := JsVal.bool false, cache := JsVal.bool false, queried := false }) ∧
    (openrouterSupportsNativeToolCalling none JsVal.nullv =
      { answer := JsVal.undef, cache := JsVal.undef, queried := false }) := by
  refine ⟨fun c env capQuery hc => ?_, fun c env hc => ?_,
    fun env capQuery => ?_, fun env => ?_,
    fun s capQuery hs => ?_, fun s capQuery hs => ?_, fun capQuery => ?_,
    ⟨rfl, rfl⟩, fun s hs => ?_, fun s hs => ?_, rfl⟩
  · simp [lemonadeSupportsNativeToolCalling, hc]
  · simp [openrouterSupportsNativeToolCalling, hc]
  · cases env with
    | none => simp [lemonadeSupportsNativeToolCalling, JsVal.truthy]
    | some s =>
      cases hs : strIncludes s "lemonade" <;>
        simp [lemonadeSupportsNativeToolCalling, JsVal.truthy, hs]
  · cases env <;> simp [openrouterSupportsNativeToolCalling]
  · simp [lemonadeSupportsNativeToolCalling, JsVal.truthy, hs]
  · simp [lemonadeSupportsNativeToolCalling, JsVal.truthy, hs]
  · simp [lemonadeSupportsNativeToolCalling, JsVal.truthy]
  · simp [openrouterSupportsNativeToolCalling, JsVal.truthy, hs]
  · simp [openrouterSupportsNativeToolCalling, JsVal.truthy, hs]

/-- Witness for C7 at concrete inputs: a cached `false` is returned without
a query; with the env flag set to a string containing "lemonade" the probe
answers true without querying; with the env unset and a failing metadata
query the Lemonade probe answers `false` (the "unknown" capability maps to
false); the OpenRouter probe with env unset answers `undefined`. -/
theorem c7_probe_cached_resolution_witness :
    lemonadeSupportsNativeToolCalling (some "lemonade,openrouter") (Except.error ()) (JsVal.bool false) =
      { answer := JsVal.bool false, cache := JsVal.bool false, queried := false } ∧
    lemonadeSupportsNativeToolCalling (some "lemonade") (Except.error ()) JsVal.nullv =
      { answer := JsVal.bool true, cache := JsVal.bool true, queried := false } ∧
    lemonadeSupportsNativeToolCalling none (Except.error ()) JsVal.nullv =
      { answer := JsVal.bool false, cache := JsVal.bool false, queried := true } ∧
    openrouterSupportsNativeToolCalling none JsVal.nullv =
      { answer := JsVal.undef, cache := JsVal.undef, queried := false } :=
  ⟨c7_probe_cached_resolution.1 (JsVal.bool false) (some "lemonade,openrouter")
      (Except.error ()) (by decide),
   (c7_probe_cached_resolution.2.2.2.2.1 "lemonade" (Except.error ()) (by decide)),
   (c7_probe_cached_resolution.2.2.2.2.2.2.1 (Except.error ())),
   c7_probe_cached_resolution.2.2.2.2.2.2.2.2.2.2⟩

/-- A parser on which every string fails to parse (models `JSON.parse`
throwing on malformed input). -/
def alwaysFailParse : String → Option Json := fun _ => none

/-- A streamed chunk delivering one complete tool-call fragment whose
arguments string is not valid JSON. -/
def c1Chunk : Option StreamDelta :=
  some { tool_calls := some [
    { index := some 0, id := some "a",
      function := some { name := some "f", arguments := some "oops" } }] }

/-- C1 counterexample: a stream ends with one tool-call accumulator whose
arguments string fails to parse, yet the returned `functionCall` is not
null — `safeJsonParse(arguments, {})` falls back to the empty object, so
the result carries the call with empty-object arguments and the caller
does not treat the response as plain text. -/
theorem c1_parse_failure_counterexample :
    alwaysFailParse "oops" = none ∧
    (tooledStream alwaysFailParse (fun _ => "u") (fun _ => [c1Chunk])
        "m" [] [] {}).functionCall = some { id := "a", name := "f", arguments := Json.obj [] } ∧
    some { id := "a", name := "f", arguments := Json.obj [] } ≠ (none : Option ToolCall) :=
  ⟨rfl, rfl, Option.some_ne_none _⟩

/-- C1 amended: when the stream ends with at least one tool-call
accumulator, the accumulator with the lowest index is selected and its
accumulated arguments string is parsed as JSON with fallback `{}`; when
that parse fails the returned `functionCall` still carries the
accumulator's id and name, with empty-object arguments (it is not null). -/
theorem c1_amended_lowest_index_empty_object (parse : String → Option Json)
    (fresh : Nat → String) (chunksOf : ChatRequest → List (Option StreamDelta))
    (model : String) (messages : List Msg) (functions : List ToolDef)
    (options : FormatOptions) (m : List (Nat × ToolCallAcc)) (k : Nat) (a : ToolCallAcc)
    (hm : ((chunksOf (tooledStreamRequest fresh model messages functions options)).foldl
      processChunk { textResponse := "", toolCallsByIndex := [] }).toolCallsByIndex = m)
    (hmin : minKey m = some k)
    (hlook : lookupIdx m k = some a)
    (hfail : parse a.arguments = none) :
    (tooledStream parse fresh chunksOf model messages functions options).functionCall =
      some { id := a.id, name := a.name, arguments := Json.obj [] } := by
  unfold tooledStream
  simp only [hm, selectFirstToolCall, hmin, hlook, safeJsonParse, hfail, Option.getD]

/-- Witness for C1 amended at the concrete failing stream of the
counterexample input. -/
theorem c1_amended_lowest_index_empty_object_witness :
    ((([c1Chunk].foldl processChunk { textResponse := "", toolCallsByIndex := [] }).toolCallsByIndex)
        = [(0, { id := "a", name := "f", arguments := "oops" })] ∧
      minKey [(0, { id := "a", name := "f", arguments := "oops" })] = some 0 ∧
      alwaysFailParse "oops" = none) ∧
    (tooledStream alwaysFailParse (fun _ => "u") (fun _ => [c1Chunk])
        "m" [] [] {}).functionCall = some { id := "a", name := "f", arguments := Json.obj [] } :=
  ⟨⟨rfl, rfl, rfl⟩,
   c1_amended_lowest_index_empty_object alwaysFailParse (fun _ => "u") (fun _ => [c1Chunk])
     "m" [] [] {} [(0, { id := "a", name := "f", arguments := "oops" })] 0
     { id := "a", name := "f", arguments := "oops" } rfl rfl rfl rfl⟩

/-- A parser recognising exactly the JSON text "null" (as `JSON.parse`
does), failing on everything else. -/
def nullOnlyParse : String → Option Json :=
  fun s => if s = "null" then some Json.null else none

/-- A provider whose response carries one tool call whose arguments string
is the JSON text "null". -/
def c10Resp : ChatRequest → ChatResponse :=
  fun _ => { message := { tool_calls := some [
    { id := "id0", function := { name := "f", arguments := "null" } }] } }

/-- C10 counterexample: the response contains a tool call whose arguments
parse as JSON (to the JSON value null), yet the result carries no
`functionCall` at all — `safeJsonParse(arguments, null)` makes the parsed
JSON null indistinguishable from a parse failure, so the driver emits the
retry signal instead. -/
theorem c10_tool_call_counterexample :
    nullOnlyParse "null" = some Json.null ∧
    (tooledComplete nullOnlyParse (fun _ => "u") c10Resp "m" [] [] (fun _ => 0) {}).functionCall
      = none ∧
    (tooledComplete nullOnlyParse (fun _ => "u") c10Resp "m" [] [] (fun _ => 0) {}).retryWithError.isSome
      = true :=
  ⟨rfl, rfl, rfl⟩

/-- C10 amended: whenever the first tool call of the response has
arguments that parse as JSON to a non-null value, `tooledComplete` returns
`textResponse = null` alongside that call's id, name and parsed arguments
(any assistant text content is discarded); and at this interface
`textResponse` and `functionCall` are never both non-null. -/
theorem c10_amended_first_call_discards_text (parse : String → Option Json)
    (fresh : Nat → String) (respOf : ChatRequest → ChatResponse) (model : String)
    (messages : List Msg) (functions : List ToolDef) (getCostFn : Json → Int)
    (options : FormatOptions) :
    (∀ tc rest j,
      (respOf (tooledCompleteRequest fresh model messages functions options)).message.tool_calls
        = some (tc :: rest) →
      parse tc.function.arguments = some j →
      j ≠ Json.null →
      tooledComplete parse fresh respOf model messages functions getCostFn options =
        { textResponse := none
          functionCall := some { id := tc.id, name := tc.function.name, arguments := j }
          retryWithError := none
          cost := getCostFn
            (respOf (tooledCompleteRequest fresh model messages functions options)).usage }) ∧
    ¬ ((tooledComplete parse fresh respOf model messages functions getCostFn options).textResponse.isSome
        = true ∧
      (tooledComplete parse fresh respOf model messages functions getCostFn options).functionCall.isSome
        = true) := by
  constructor
  · intro tc rest j htc hparse hne
    have hsafe : safeJsonParse parse tc.function.arguments Json.null = j := by
      simp [safeJsonParse, hparse]
    simp only [tooledComplete, htc, hsafe]
  · rcases hcalls : (respOf (tooledCompleteRequest fresh model messages functions options)).message.tool_calls
      with _ | ⟨_ | ⟨tc, rest⟩⟩
    · simp [tooledComplete, hcalls]
    · simp [tooledComplete, hcalls]
    · rcases hj : safeJsonParse parse tc.function.arguments Json.null <;>
        simp [tooledComplete, hcalls, hj]

/-- A parser recognising exactly the JSON text of the spec's running
example, mapping it to the object `{"q":"cats"}`. -/
def exampleParse : String → Option Json :=
  fun s => if s = "\x7b\"q\":\"cats\"\x7d" then some (Json.obj [("q", Json.str "cats")]) else none

/-- A provider whose response carries one well-formed tool call. -/
def c10WitnessResp : ChatRequest → ChatResponse :=
  fun _ => { message := { tool_calls := some [
    { id := "idw", function := { name := "search", arguments := "\x7b\"q\":\"cats\"\x7d" } }] } }

/-- Witness for C10 amended: a concrete response whose first tool call has
arguments parsing to the object `{"q":"cats"}` yields exactly that call
with `textResponse = null`. -/
theorem c10_amended_first_call_discards_text_witness :
    (c10WitnessResp (tooledCompleteRequest (fun _ => "u") "m" [] [] {})).message.tool_calls
      = some [{ id := "idw", function := { name := "search", arguments := "\x7b\"q\":\"cats\"\x7d" } }] ∧
    tooledComplete exampleParse (fun _ => "u") c10WitnessResp "m" [] [] (fun _ => 0) {} =
      { textResponse := none
        functionCall := some { id := "idw", name := "search"
                               arguments := Json.obj [("q", Json.str "cats")] }
        retryWithError := none
        cost := 0 } :=
  ⟨rfl,
   (c10_amended_first_call_discards_text exampleParse (fun _ => "u") c10WitnessResp
      "m" [] [] (fun _ => 0) {}).1
     { id := "idw", function := { name := "search", arguments := "\x7b\"q\":\"cats\"\x7d" } }
     [] (Json.obj [("q", Json.str "cats")]) rfl rfl (by simp)⟩

/-- A provider that always answers with the same tool call whose
arguments string is malformed JSON. -/
def c3Resp : ChatRequest → ChatResponse :=
  fun _ => { message := { tool_calls := some [
    { id := "id1", function := { name := "fn", arguments := "not json" } }] } }

/-- C3 counterexample: against a provider that deterministically re-emits
the same malformed tool-call payload, the provider-level `complete`
recursion triggered by the retry signal is still running after three
`tooledComplete` calls (fuel 3 is exhausted), i.e. it loops more than once
for the same malformed payload — the recursion is uncapped. -/
theorem c3_retry_loop_counterexample :
    alwaysFailParse "not json" = none ∧
    lemonadeCompleteNative alwaysFailParse (fun _ => "u") c3Resp "m"
      [{ name := "fn" }] 3 [{ role := "user", content := Json.str "hi" }] = none :=
  ⟨rfl, rfl⟩

/-- C3 amended: a first tool call whose arguments fail to parse yields the
retry signal — a synthetic `function`-role message reporting the raw
unparsed arguments, with no functionCall, no textResponse and no exception
— and the `complete` re-invocation this triggers is uncapped: a provider
that always returns a malformed first tool call makes the recursion run
forever (it consumes every amount of fuel). -/
theorem c3_amended_retry_signal_unbounded :
    (∀ (parse : String → Option Json) (fresh : Nat → String)
      (respOf : ChatRequest → ChatResponse) (model : String) (messages : List Msg)
      (functions : List ToolDef) (getCostFn : Json → Int) (options : FormatOptions)
      (tc : RespToolCall) (rest : List RespToolCall),
      (respOf (tooledCompleteRequest fresh model messages functions options)).message.tool_calls
        = some (tc :: rest) →
      parse tc.function.arguments = none →
      tooledComplete parse fresh respOf model messages functions getCostFn options =
        { textResponse := none
          functionCall := none
          retryWithError := some
            { role := "function"
              name := some tc.function.name
              content := Json.str ("Failed to parse tool call arguments as JSON. Raw arguments: "
                ++ tc.function.arguments)
              originalFunctionCall := some
                { id := some tc.id
                  name := tc.function.name
                  arguments := Json.str tc.function.arguments } }
          cost := getCostFn
            (respOf (tooledCompleteRequest fresh model messages functions options)).usage }) ∧
    (∀ (parse : String → Option Json) (fresh : Nat → String)
      (respOf : ChatRequest → ChatResponse) (model : String) (functions : List ToolDef)
      (fuel : Nat) (messages : List Msg),
      (∀ ms : List Msg, ∃ tc rest,
        (respOf (tooledCompleteRequest fresh model ms functions {})).message.tool_calls
          = some (tc :: rest) ∧
        parse tc.function.arguments = none) →
      lemonadeCompleteNative parse fresh respOf model functions fuel messages = none) := by
  have part1 : ∀ (parse : String → Option Json) (fresh : Nat → String)
      (respOf : ChatRequest → ChatResponse) (model : String) (messages : List Msg)
      (functions : List ToolDef) (getCostFn : Json → Int) (options : FormatOptions)
      (tc : RespToolCall) (rest : List RespToolCall),
      (respOf (tooledCompleteRequest fresh model messages functions options)).message.tool_calls
        = some (tc :: rest) →
      parse tc.function.arguments = none →
      tooledComplete parse fresh respOf model messages functions getCostFn options =
        { textResponse := none
          functionCall := none
          retryWithError := some
            { role := "function"
              name := some tc.function.name
              content := Json.str ("Failed to parse tool call arguments as JSON. Raw arguments: "
                ++ tc.function.arguments)
              originalFunctionCall := some
                { id := some tc.id
                  name := tc.function.name
                  arguments := Json.str tc.function.arguments } }
          cost := getCostFn
            (respOf (tooledCompleteRequest fresh model messages functions options)).usage } := by
    intro parse fresh respOf model messages functions getCostFn options tc rest htc hparse
    have hsafe : safeJsonParse parse tc.function.arguments Json.null = Json.null := by
      simp [safeJsonParse, hparse]
    simp only [tooledComplete, htc, hsafe]
  refine ⟨part1, ?_⟩
  intro parse fresh respOf model functions fuel
  induction fuel with
  | zero => intro messages _; rfl
  | succ n ih =>
    intro messages hbad
    obtain ⟨tc, rest, htc, hparse⟩ := hbad messages
    have hres := part1 parse fresh respOf model messages functions (fun _ => 0) {} tc rest htc hparse
    simp only [lemonadeCompleteNative, hres]
    exact ih _ hbad

/-- Witness for C3 amended at the concrete always-malformed provider: the
first call yields the retry signal carrying the raw arguments, and the
recursion is still unfinished with fuel 5. -/
theorem c3_amended_retry_signal_unbounded_witness :
    tooledComplete alwaysFailParse (fun _ => "u") c3Resp "m"
        [{ role := "user", content := Json.str "hi" }] [{ name := "fn" }] (fun _ => 0) {} =
      { textResponse := none
        functionCall := none
        retryWithError := some
          { role := "function"
            name := some "fn"
            content := Json.str "Failed to parse tool call arguments as JSON. Raw arguments: not json"
            originalFunctionCall := some
              { id := some "id1", name := "fn", arguments := Json.str "not json" } }
        cost := 0 } ∧
    lemonadeCompleteNative alwaysFailParse (fun _ => "u") c3Resp "m"
      [{ name := "fn" }] 5 [{ role := "user", content := Json.str "hi" }] = none :=
  ⟨c3_amended_retry_signal_unbounded.1 alwaysFailParse (fun _ => "u") c3Resp "m"
      [{ role := "user", content := Json.str "hi" }] [{ name := "fn" }] (fun _ => 0) {}
      { id := "id1", function := { name := "fn", arguments := "not json" } } [] rfl rfl,
   c3_amended_retry_signal_unbounded.2 alwaysFailParse (fun _ => "u") c3Resp "m"
      [{ name := "fn" }] 5 [{ role := "user", content := Json.str "hi" }]
      (fun _ => ⟨{ id := "id1", function := { name := "fn", arguments := "not json" } }, [], rfl, rfl⟩)⟩

/-- A streamed chunk carrying exactly one tool-call fragment. -/
def chunkOfDelta (tc : DeltaToolCall) : Option StreamDelta :=
  some { tool_calls := some [tc] }

/-- A continuation fragment at index `i` with no id: an optional name piece
and an optional arguments piece. -/
def contChunkOf (i : Nat) (p : Option String × Option String) : Option StreamDelta :=
  chunkOfDelta { index := some i, id := none, function := some { name := p.1, arguments := p.2 } }

/-- Left-to-right concatenation of optional string pieces onto a base
(absent pieces contribute nothing, matching the accumulator's appends). -/
def joinPieces (base : String) (l : List (Option String)) : String :=
  l.foldl (fun s o => s ++ o.getD "") base

/-- Appending a piece guarded by truthiness equals appending its `getD ""`
image: the only falsy string is the empty string, which appends trivially. -/
theorem truthy_append_getD (o : Option String) (s : String) :
    (if strTruthy o = true then s ++ o.getD "" else s) = s ++ o.getD "" := by
  rcases o with _ | t
  · simp [strTruthy]
  · by_cases ht : t = "" <;> simp [strTruthy, ht]

/-- Merging one continuation fragment into the single accumulator at its
index appends the fragment's pieces to the accumulated name and arguments. -/
theorem processChunk_cont (i : Nat) (tr idv n a : String) (pn pa : Option String) :
    processChunk ⟨tr, [(i, ⟨idv, n, a⟩)]⟩ (contChunkOf i (pn, pa)) =
      ⟨tr, [(i, ⟨idv, n ++ pn.getD "", a ++ pa.getD ""⟩)]⟩ := by
  rcases pn with _ | sn
  · rcases pa with _ | sa
    · simp [processChunk, contChunkOf, chunkOfDelta, applyDeltaToolCall, lookupIdx,
        updateIdx, strTruthy]
    · by_cases hsa : sa = "" <;>
        simp [processChunk, contChunkOf, chunkOfDelta, applyDeltaToolCall, lookupIdx,
          updateIdx, strTruthy, hsa]
  · rcases pa with _ | sa
    · by_cases hsn : sn = "" <;>
        simp [processChunk, contChunkOf, chunkOfDelta, applyDeltaToolCall, lookupIdx,
          updateIdx, strTruthy, hsn]
    · by_cases hsn : sn = "" <;> by_cases hsa : sa = "" <;>
        simp [processChunk, contChunkOf, chunkOfDelta, applyDeltaToolCall, lookupIdx,
          updateIdx, strTruthy, hsn, hsa]

/-- Folding a list of continuation fragments over the single accumulator
concatenates all their pieces in order. -/
theorem foldl_cont (i : Nat) (idv : String) :
    ∀ (pieces : List (Option String × Option String)) (tr n a : String),
    List.foldl processChunk ⟨tr, [(i, ⟨idv, n, a⟩)]⟩ (pieces.map (contChunkOf i)) =
      ⟨tr, [(i, ⟨idv, joinPieces n (pieces.map Prod.fst),
        joinPieces a (pieces.map Prod.snd)⟩)]⟩ := by
  intro pieces
  induction pieces with
  | nil => intro tr n a; simp [joinPieces]
  | cons p rest ih =>
    intro tr n a
    rcases p with ⟨pn, pa⟩
    simp only [List.map_cons, List.foldl_cons]
    rw [processChunk_cont, ih]
    simp [joinPieces]

/-- A truthiness evaluation fact used to keep `strTruthy` folded while
simplifying chunk processing. -/
theorem strTruthy_none : strTruthy none = false := rfl

/-- The single chunk delivering a whole tool call: the first fragment's id
and index with the fully concatenated name and arguments strings. -/
def wholeCallChunk (i : Nat) (first : DeltaToolCall)
    (pieces : List (Option String × Option String)) : Option StreamDelta :=
  chunkOfDelta
    { index := some i
      id := first.id
      function := some
        { name := some (joinPieces ((first.function.bind DeltaFn.name).getD "")
            (pieces.map Prod.fst))
          arguments := some (joinPieces ((first.function.bind DeltaFn.arguments).getD "")
            (pieces.map Prod.snd)) } }

/-- C4: streaming tool-call assembly is fragmentation-invariant.  For any
tool-call fragment sequence at a constant index whose first fragment
carries a (truthy) id, delivering the remaining name/arguments pieces over
any number of id-less chunks produces the same `tooledStream` result —
including the same final assembled and parsed functionCall — as delivering
the whole call in a single chunk carrying the concatenated name and
arguments. -/
theorem c4_fragmentation_invariant (parse : String → Option Json) (fresh : Nat → String)
    (model : String) (messages : List Msg) (functions : List ToolDef)
    (options : FormatOptions) (i : Nat) (first : DeltaToolCall)
    (pieces : List (Option String × Option String))
    (hid : strTruthy first.id = true) (hidx : first.index = some i) :
    tooledStream parse fresh (fun _ => chunkOfDelta first :: pieces.map (contChunkOf i))
        model messages functions options =
      tooledStream parse fresh (fun _ => [wholeCallChunk i first pieces])
        model messages functions options := by
  have h1 : processChunk ⟨"", []⟩ (chunkOfDelta first) =
      ⟨"", [(i, ⟨first.id.getD "", (first.function.bind DeltaFn.name).getD "",
        (first.function.bind DeltaFn.arguments).getD ""⟩)]⟩ := by
    simp [processChunk, chunkOfDelta, applyDeltaToolCall, hid, hidx, strTruthy_none, updateIdx]
  have h2 : processChunk ⟨"", []⟩ (wholeCallChunk i first pieces) =
      ⟨"", [(i, ⟨first.id.getD "",
        joinPieces ((first.function.bind DeltaFn.name).getD "") (pieces.map Prod.fst),
        joinPieces ((first.function.bind DeltaFn.arguments).getD "") (pieces.map Prod.snd)⟩)]⟩ := by
    simp [wholeCallChunk, processChunk, chunkOfDelta, applyDeltaToolCall, hid, strTruthy_none,
      updateIdx]
  unfold tooledStream
  simp only [List.foldl_cons, List.foldl_nil]
  rw [h1, h2, foldl_cont]

/-- The first fragment of the spec's running example:
`{id:"c1", index:0, name:"search"}` (no arguments field). -/
def c4First : DeltaToolCall :=
  { index := some 0, id := some "c1", function := some { name := some "search" } }

/-- The continuation pieces of the spec's running example: two
arguments-only fragments. -/
def c4Pieces : List (Option String × Option String) :=
  [(none, some "\x7b\"q\":"), (none, some "\"cats\"\x7d")]

/-- Witness for C4 at the spec's running example: the three fragments
`{id:"c1", index:0, name:"search"}`, `{index:0, arguments:'{"q":'}`,
`{index:0, arguments:'"cats"}'}` assemble to the same result as one chunk,
and the final functionCall is `{id:"c1", name:"search",
arguments:{q:"cats"}}`. -/
theorem c4_fragmentation_invariant_witness :
    strTruthy c4First.id = true ∧
    tooledStream exampleParse (fun _ => "u") (fun _ => chunkOfDelta c4First :: c4Pieces.map (contChunkOf 0))
        "m" [] [] {} =
      tooledStream exampleParse (fun _ => "u") (fun _ => [wholeCallChunk 0 c4First c4Pieces])
        "m" [] [] {} ∧
    (tooledStream exampleParse (fun _ => "u") (fun _ => chunkOfDelta c4First :: c4Pieces.map (contChunkOf 0))
        "m" [] [] {}).functionCall =
      some { id := "c1", name := "search", arguments := Json.obj [("q", Json.str "cats")] } :=
  ⟨rfl,
   c4_fragmentation_invariant exampleParse (fun _ => "u") "m" [] [] {} 0 c4First c4Pieces rfl rfl,
   rfl⟩

/-- Per-message formatting action: the messages a single input message
contributes to the formatted output, with the updated uuid counter.  On
histories whose assistant messages carry no `tool_calls` (the aibitat data
model) the accumulator guard of `formatMessagesForTools` is always true,
and the whole function acts pointwise, as `formatAux_eq_pointwise` proves. -/
def formatOne (opts : FormatOptions) (fresh : Nat → String) (ctr : Nat) (m : Msg) :
    List Msg × Nat :=
  if m.role = "function" then
    match m.originalFunctionCall with
    | some ofc =>
      if strTruthy ofc.id then
        ([mkAssistantCallMsg opts (ofc.id.getD "") ofc.name ofc.arguments,
          mkToolResultMsg (ofc.id.getD "") m.content], ctr)
      else (formatNoId opts fresh ctr m, ctr + 1)
    | none => (formatNoId opts fresh ctr m, ctr + 1)
  else if opts.injectReasoningContent && m.role == "assistant" && m.reasoning_content.isNone then
    ([{ m with reasoning_content := some "" }], ctr)
  else ([m], ctr)

/-- Pointwise reading of `formatMessagesForTools`. -/
def formatPointwise (opts : FormatOptions) (fresh : Nat → String) :
    List Msg → Nat → List Msg
  | [], _ => []
  | m :: rest, ctr =>
    (formatOne opts fresh ctr m).1 ++
      formatPointwise opts fresh rest (formatOne opts fresh ctr m).2

/-- A message that is not an assistant message carrying `tool_calls`: the
shape of every message of the aibitat input data model, and the property
making the `prevMsg` guard of `formatMessagesForTools` always fire. -/
def notAsstCall (m : Msg) : Bool :=
  !(m.role == "assistant" && m.tool_calls.isSome)

/-- The last element of a list extended by two elements. -/
theorem getLast?_append_pair {α : Type} (acc : List α) (a b : α) :
    (acc ++ [a, b]).getLast? = some b := by
  rw [show acc ++ [a, b] = (acc ++ [a]) ++ [b] by simp]
  exact List.getLast?_concat _

/-- On input histories whose messages all satisfy `notAsstCall` (as every
aibitat history does), `formatMessagesForTools` acts pointwise: the
accumulator guard can never suppress the synthesized assistant message. -/
theorem formatAux_eq_pointwise (opts : FormatOptions) (fresh : Nat → String) :
    ∀ (msgs : List Msg) (acc : List Msg) (ctr : Nat),
    (∀ l, acc.getLast? = some l → notAsstCall l = true) →
    (∀ m ∈ msgs, notAsstCall m = true) →
    formatMessagesForToolsAux opts fresh acc msgs ctr =
      acc ++ formatPointwise opts fresh msgs ctr := by
  intro msgs
  induction msgs with
  | nil =>
    intro acc ctr _ _
    simp [formatMessagesForToolsAux, formatPointwise]
  | cons m rest ih =>
    intro acc ctr hacc hall
    have hm : notAsstCall m = true := hall m (List.mem_cons_self m rest)
    have hrest : ∀ x ∈ rest, notAsstCall x = true :=
      fun x hx => hall x (List.mem_cons_of_mem _ hx)
    by_cases hrole : m.role = "function"
    · cases hofc : m.originalFunctionCall with
      | some ofc =>
        by_cases hid : strTruthy ofc.id = true
        · have hneed : (match acc.getLast? with
              | none => true
              | some p => !(p.role == "assistant" && p.tool_calls.isSome)) = true := by
            cases hL : acc.getLast? with
            | none => rfl
            | some p => exact hacc p hL
          have hstep : formatMessagesForToolsAux opts fresh acc (m :: rest) ctr =
              formatMessagesForToolsAux opts fresh
                ((acc ++ [mkAssistantCallMsg opts (ofc.id.getD "") ofc.name ofc.arguments]) ++
                  [mkToolResultMsg (ofc.id.getD "") m.content]) rest ctr := by
            simp only [formatMessagesForToolsAux, hrole, if_pos, hofc, hid, if_true, hneed]
          rw [hstep, ih _ ctr ?_ hrest]
          · simp only [formatPointwise, formatOne, hrole, if_pos, hofc, hid, if_true]
            simp [List.append_assoc]
          · intro l hl
            rw [List.getLast?_concat] at hl
            cases hl
            rfl
        · have hstep : formatMessagesForToolsAux opts fresh acc (m :: rest) ctr =
              formatMessagesForToolsAux opts fresh
                (acc ++ formatNoId opts fresh ctr m) rest (ctr + 1) := by
            simp only [formatMessagesForToolsAux, hrole, if_pos, hofc,
              Bool.not_eq_true] at *
            simp [hid]
          rw [hstep, ih _ (ctr + 1) ?_ hrest]
          · simp only [formatPointwise, formatOne, hrole, if_pos, hofc]
            simp [hid, formatNoId, List.append_assoc]
          · intro l hl
            simp only [formatNoId] at hl
            rw [getLast?_append_pair] at hl
            cases hl
            rfl
      | none =>
        have hstep : formatMessagesForToolsAux opts fresh acc (m :: rest) ctr =
            formatMessagesForToolsAux opts fresh
              (acc ++ formatNoId opts fresh ctr m) rest (ctr + 1) := by
          simp only [formatMessagesForToolsAux, hrole, if_pos, hofc]
        rw [hstep, ih _ (ctr + 1) ?_ hrest]
        · simp only [formatPointwise, formatOne, hrole, if_pos, hofc]
          simp [formatNoId, List.append_assoc]
        · intro l hl
          simp only [formatNoId] at hl
          rw [getLast?_append_pair] at hl
          cases hl
          rfl
    · by_cases hinj : (opts.injectReasoningContent && m.role == "assistant" &&
          m.reasoning_content.isNone) = true
      · have hstep : formatMessagesForToolsAux opts fresh acc (m :: rest) ctr =
            formatMessagesForToolsAux opts fresh
              (acc ++ [{ m with reasoning_content := some "" }]) rest ctr := by
          simp only [formatMessagesForToolsAux, hrole, if_neg, hinj, if_true]
          simp [hrole, hinj]
        rw [hstep, ih _ ctr ?_ hrest]
        · simp only [formatPointwise, formatOne]
          simp [hrole, hinj]
        · intro l hl
          rw [List.getLast?_concat] at hl
          cases hl
          exact hm
      · have hstep : formatMessagesForToolsAux opts fresh acc (m :: rest) ctr =
            formatMessagesForToolsAux opts fresh (acc ++ [m]) rest ctr := by
          simp [formatMessagesForToolsAux, hrole, hinj]
        rw [hstep, ih _ ctr ?_ hrest]
        · simp only [formatPointwise, formatOne]
          simp [hrole, hinj]
        · intro l hl
          rw [List.getLast?_concat] at hl
          cases hl
          exact hm

/-- Whether formatting a message consumes one fresh uuid (a `function`
message without a truthy `originalFunctionCall.id`). -/
def usesFresh (m : Msg) : Bool :=
  m.role == "function" && !(strTruthy (m.originalFunctionCall.bind OrigCall.id))

/-- The counter output of `formatOne` is determined by `usesFresh`. -/
theorem formatOne_snd (opts : FormatOptions) (fresh : Nat → String) (ctr : Nat) (m : Msg) :
    (formatOne opts fresh ctr m).2 = ctr + (if usesFresh m then 1 else 0) := by
  by_cases hrole : m.role = "function"
  · cases hofc : m.originalFunctionCall with
    | some ofc =>
      by_cases hid : strTruthy ofc.id = true
      · simp [formatOne, usesFresh, hrole, hofc, hid]
      · simp [formatOne, usesFresh, hrole, hofc, hid]
    | none => simp [formatOne, usesFresh, hrole, hofc, strTruthy]
  · by_cases hinj : (opts.injectReasoningContent && m.role == "assistant" &&
        m.reasoning_content.isNone) = true
    · simp [formatOne, usesFresh, hrole, hinj]
    · simp [formatOne, usesFresh, hrole, hinj]

/-- The number of fresh uuids consumed while formatting a message list. -/
def freshCount (msgs : List Msg) : Nat :=
  msgs.countP usesFresh

/-- The pointwise formatter distributes over append, offsetting the uuid
counter by the number of fresh ids the first part consumes. -/
theorem formatPointwise_append (opts : FormatOptions) (fresh : Nat → String) :
    ∀ (xs ys : List Msg) (ctr : Nat),
    formatPointwise opts fresh (xs ++ ys) ctr =
      formatPointwise opts fresh xs ctr ++
        formatPointwise opts fresh ys (ctr + freshCount xs) := by
  intro xs
  induction xs with
  | nil => intro ys ctr; simp [formatPointwise, freshCount]
  | cons x xs ih =>
    intro ys ctr
    show (formatOne opts fresh ctr x).1 ++
        formatPointwise opts fresh (xs ++ ys) ((formatOne opts fresh ctr x).2) =
      ((formatOne opts fresh ctr x).1 ++
        formatPointwise opts fresh xs ((formatOne opts fresh ctr x).2)) ++
        formatPointwise opts fresh ys (ctr + freshCount (x :: xs))
    rw [ih ys ((formatOne opts fresh ctr x).2)]
    have hc : (formatOne opts fresh ctr x).2 + freshCount xs =
        ctr + freshCount (x :: xs) := by
      rw [formatOne_snd]
      simp only [freshCount, List.countP_cons]
      by_cases hu : usesFresh x = true
      · simp [hu]
        omega
      · simp [hu]
    rw [hc, List.append_assoc]

/-- An assistant message whose `tool_calls` array contains an entry with
the given id (the first half of the reconciliation pair). -/
def isAssistantCallWithId (i : String) (m : Msg) : Bool :=
  m.role == "assistant" &&
    (match m.tool_calls with
     | some l => l.any fun e => e.id == i
     | none => false)

/-- A role:"tool" result message referencing the given id (the second half
of the reconciliation pair). -/
def isToolResultWithId (i : String) (m : Msg) : Bool :=
  m.role == "tool" && m.tool_call_id == some i

/-- An input message that cannot contribute a reconciliation pair for the
id `i`: it is no assistant-with-tool_calls, no tool result for `i`, and no
`function` message carrying `i`. -/
def avoidsId (i : String) (m : Msg) : Prop :=
  notAsstCall m = true ∧
  isToolResultWithId i m = false ∧
  m.originalFunctionCall.bind OrigCall.id ≠ some i

instance (i : String) (m : Msg) : Decidable (avoidsId i m) := by
  unfold avoidsId
  infer_instance

/-- A `notAsstCall` message never satisfies `isAssistantCallWithId`. -/
theorem notAsstCall_no_call (i : String) (m : Msg) (h : notAsstCall m = true) :
    isAssistantCallWithId i m = false := by
  unfold notAsstCall at h
  unfold isAssistantCallWithId
  cases htc : m.tool_calls with
  | none => simp
  | some l =>
    rw [htc] at h
    simp at h
    simp [h]

/-- The messages contributed by formatting one `avoidsId` input mention no
reconciliation pair for `i` (given that fresh uuids never collide with
`i`). -/
theorem formatOne_avoids (opts : FormatOptions) (fresh : Nat → String) (i : String)
    (hfresh : ∀ n, "call_" ++ fresh n ≠ i) (ctr : Nat) (m : Msg) (hm : avoidsId i m) :
    (formatOne opts fresh ctr m).1.countP (isAssistantCallWithId i) = 0 ∧
    (formatOne opts fresh ctr m).1.countP (isToolResultWithId i) = 0 := by
  obtain ⟨hnac, htri, hofcid⟩ := hm
  by_cases hrole : m.role = "function"
  · cases hofc : m.originalFunctionCall with
    | some ofc =>
      have hofcid2 : ofc.id ≠ some i := by
        rw [hofc] at hofcid
        simpa using hofcid
      by_cases hid : strTruthy ofc.id = true
      · cases hidv : ofc.id with
        | none => rw [hidv] at hid; simp [strTruthy] at hid
        | some j =>
          have hji : j ≠ i := by
            rw [hidv] at hofcid2
            simpa using hofcid2
          have hid2 : strTruthy (some j) = true := by rw [← hidv]; exact hid
          simp [formatOne, hrole, hofc, hid, hidv, hid2, mkAssistantCallMsg, mkToolResultMsg,
            isAssistantCallWithId, isToolResultWithId, List.countP_cons, hji]
      · simp [formatOne, hrole, hofc, hid, formatNoId, mkToolResultMsg,
          isAssistantCallWithId, isToolResultWithId, List.countP_cons, hfresh ctr]
    | none =>
      simp [formatOne, hrole, hofc, formatNoId, mkToolResultMsg,
        isAssistantCallWithId, isToolResultWithId, List.countP_cons, hfresh ctr]
  · have hnocall := notAsstCall_no_call i m hnac
    by_cases hinj : (opts.injectReasoningContent && m.role == "assistant" &&
        m.reasoning_content.isNone) = true
    · have hnocall2 : isAssistantCallWithId i { m with reasoning_content := some "" } = false :=
        hnocall
      have htri2 : isToolResultWithId i { m with reasoning_content := some "" } = false := htri
      simp [formatOne, hrole, hinj, List.countP_cons, hnocall2, htri2]
    · simp [formatOne, hrole, hinj, List.countP_cons, hnocall, htri]

/-- Formatting a list of `avoidsId` inputs yields no reconciliation pair
half for `i`. -/
theorem formatPointwise_avoids (opts : FormatOptions) (fresh : Nat → String) (i : String)
    (hfresh : ∀ n, "call_" ++ fresh n ≠ i) :
    ∀ (msgs : List Msg) (ctr : Nat), (∀ m ∈ msgs, avoidsId i m) →
    (formatPointwise opts fresh msgs ctr).countP (isAssistantCallWithId i) = 0 ∧
    (formatPointwise opts fresh msgs ctr).countP (isToolResultWithId i) = 0 := by
  intro msgs
  induction msgs with
  | nil => intro ctr _; simp [formatPointwise]
  | cons m rest ih =>
    intro ctr hall
    have h1 := formatOne_avoids opts fresh i hfresh ctr m (hall m (List.mem_cons_self m rest))
    have h2 := ih ((formatOne opts fresh ctr m).2)
      (fun x hx => hall x (List.mem_cons_of_mem _ hx))
    simp [formatPointwise, List.countP_append, h1.1, h1.2, h2.1, h2.2]

/-- C2: for a history containing a `function`-role message whose
`originalFunctionCall` has a (truthy) id `i` — with the surrounding
messages drawn from the aibitat data model and not mentioning `i`, and
fresh uuids never colliding with `i` — `formatMessagesForTools` (default
options) produces exactly one assistant message carrying a tool call with
id `i` and exactly one tool-result message referencing `i`, adjacent and
in that order, at the original turn position (after the formatted prefix,
before the formatted suffix); non-function messages format to themselves,
so output order is preserved relative to input. -/
theorem c2_function_id_reconciliation
    (fresh : Nat → String) (pre post : List Msg) (f : Msg) (ofc : OrigCall) (i : String)
    (hrole : f.role = "function")
    (hofc : f.originalFunctionCall = some ofc)
    (hi : ofc.id = some i)
    (hne : i ≠ "")
    (hwf : ∀ m ∈ pre ++ post, avoidsId i m)
    (hfresh : ∀ n, "call_" ++ fresh n ≠ i) :
    formatMessagesForTools fresh (pre ++ f :: post) {} =
      formatPointwise {} fresh pre 0 ++
        ([mkAssistantCallMsg {} i ofc.name ofc.arguments, mkToolResultMsg i f.content] ++
          formatPointwise {} fresh post (freshCount pre)) ∧
    (formatMessagesForTools fresh (pre ++ f :: post) {}).countP (isAssistantCallWithId i) = 1 ∧
    (formatMessagesForTools fresh (pre ++ f :: post) {}).countP (isToolResultWithId i) = 1 ∧
    (∀ (m : Msg) (c : Nat), m.role ≠ "function" → formatOne {} fresh c m = ([m], c)) := by
  have hidT : strTruthy ofc.id = true := by
    rw [hi]; simp [strTruthy, hne]
  have hnacF : notAsstCall f = true := by simp [notAsstCall, hrole]
  have hallNac : ∀ m ∈ pre ++ f :: post, notAsstCall m = true := by
    intro m hm
    rcases List.mem_append.1 hm with h | h
    · exact (hwf m (List.mem_append.2 (Or.inl h))).1
    · rcases List.mem_cons.1 h with rfl | h2
      · exact hnacF
      · exact (hwf m (List.mem_append.2 (Or.inr h2))).1
  have hmain : formatMessagesForTools fresh (pre ++ f :: post) {} =
      formatPointwise {} fresh (pre ++ f :: post) 0 := by
    unfold formatMessagesForTools
    refine formatAux_eq_pointwise {} fresh _ [] 0 ?_ hallNac
    intro l hl
    simp at hl
  have hf1 : formatOne {} fresh (freshCount pre) f =
      ([mkAssistantCallMsg {} i ofc.name ofc.arguments, mkToolResultMsg i f.content],
        freshCount pre) := by
    simp [formatOne, hrole, hofc, hidT, hi, strTruthy, hne]
  have hdec : formatMessagesForTools fresh (pre ++ f :: post) {} =
      formatPointwise {} fresh pre 0 ++
        ([mkAssistantCallMsg {} i ofc.name ofc.arguments, mkToolResultMsg i f.content] ++
          formatPointwise {} fresh post (freshCount pre)) := by
    rw [hmain, formatPointwise_append {} fresh pre (f :: post) 0]
    simp only [Nat.zero_add]
    have : formatPointwise {} fresh (f :: post) (freshCount pre) =
        [mkAssistantCallMsg {} i ofc.name ofc.arguments, mkToolResultMsg i f.content] ++
          formatPointwise {} fresh post (freshCount pre) := by
      simp only [formatPointwise, hf1]
    rw [this]
  have hpre0 := formatPointwise_avoids {} fresh i hfresh pre 0
    (fun m hm => hwf m (List.mem_append.2 (Or.inl hm)))
  have hpost0 := formatPointwise_avoids {} fresh i hfresh post (freshCount pre)
    (fun m hm => hwf m (List.mem_append.2 (Or.inr hm)))
  have hA1 : isAssistantCallWithId i (mkAssistantCallMsg {} i ofc.name ofc.arguments) = true := by
    simp [isAssistantCallWithId, mkAssistantCallMsg]
  have hA2 : isAssistantCallWithId i (mkToolResultMsg i f.content) = false := by
    simp [isAssistantCallWithId, mkToolResultMsg]
  have hT1 : isToolResultWithId i (mkAssistantCallMsg {} i ofc.name ofc.arguments) = false := by
    simp [isToolResultWithId, mkAssistantCallMsg]
  have hT2 : isToolResultWithId i (mkToolResultMsg i f.content) = true := by
    simp [isToolResultWithId, mkToolResultMsg]
  refine ⟨hdec, ?_, ?_, ?_⟩
  · rw [hdec]
    simp [List.countP_append, List.countP_cons, hpre0.1, hpost0.1, hA1, hA2]
  · rw [hdec]
    simp [List.countP_append, List.countP_cons, hpre0.2, hpost0.2, hT1, hT2]
  · intro m c hm
    simp [formatOne, hm]

/-- A plain user message for the C2 witness history. -/
def c2UserMsg : Msg := { role := "user", content := Json.str "hi" }

/-- A `function`-role message carrying an id-ed originalFunctionCall. -/
def c2FnMsg : Msg :=
  { role := "function", content := Json.str "42", name := some "calc"
    originalFunctionCall := some { id := some "X", name := "calc", arguments := Json.obj [] } }

/-- Witness for C2 at a concrete history `[user, function(id := "X")]`:
formatting produces the user message followed by exactly one
assistant-call and one tool-result message for "X", in that order. -/
theorem c2_function_id_reconciliation_witness :
    formatMessagesForTools (fun _ => "u") ([c2UserMsg] ++ c2FnMsg :: []) {} =
      formatPointwise {} (fun _ => "u") [c2UserMsg] 0 ++
        ([mkAssistantCallMsg {} "X" "calc" (Json.obj []), mkToolResultMsg "X" (Json.str "42")] ++
          formatPointwise {} (fun _ => "u") [] (freshCount [c2UserMsg])) ∧
    (formatMessagesForTools (fun _ => "u") ([c2UserMsg] ++ c2FnMsg :: []) {}).countP
      (isAssistantCallWithId "X") = 1 ∧
    (formatMessagesForTools (fun _ => "u") ([c2UserMsg] ++ c2FnMsg :: []) {}).countP
      (isToolResultWithId "X") = 1 ∧
    (∀ (m : Msg) (c : Nat), m.role ≠ "function" →
      formatOne {} (fun _ => "u") c m = ([m], c)) :=
  c2_function_id_reconciliation (fun _ => "u") [c2UserMsg] [] c2FnMsg
    { id := some "X", name := "calc", arguments := Json.obj [] } "X"
    rfl rfl rfl (by decide) (by decide)
    (fun n => show "call_" ++ "u" ≠ "X" by decide)

mutual

/-- Json boolean equality is reflexive. -/
theorem Json.beq_self : ∀ j : Json, Json.beq j j = true
  | .null => rfl
  | .bool b => by simp [Json.beq]
  | .num n => by simp [Json.beq]
  | .str s => by simp [Json.beq]
  | .arr xs => by simp only [Json.beq]; exact Json.beqList_self xs
  | .obj fs => by simp only [Json.beq]; exact Json.beqFields_self fs

theorem Json.beqList_self : ∀ l : List Json, Json.beqList l l = true
  | [] => rfl
  | x :: xs => by
    simp only [Json.beqList, Bool.and_eq_true]
    exact ⟨Json.beq_self x, Json.beqList_self xs⟩

theorem Json.beqFields_self : ∀ l : List (String × Json), Json.beqFields l l = true
  | [] => rfl
  | (k, v) :: xs => by
    simp only [Json.beqFields, Bool.and_eq_true]
    exact ⟨⟨by simp, Json.beq_self v⟩, Json.beqFields_self xs⟩

end

/-- A (name, arguments) pair is `==`-equal to itself. -/
theorem pair_beq_self (name : String) (args : Json) :
    (((name, args) : String × Json) == (name, args)) = true := by
  show (name == name && Json.beq args args) = true
  simp [Json.beq_self]

/-- A run list extended with a pair contains that pair. -/
theorem contains_append_pair (l : List (String × Json)) (p : String × Json) :
    (l ++ [p]).contains p = true := by
  induction l with
  | nil =>
    show ([p].contains p) = true
    simp only [List.contains, List.elem]
    rcases p with ⟨name, args⟩
    simp [pair_beq_self]
  | cons x xs ih =>
    simp only [List.cons_append, List.contains, List.elem] at ih ⊢
    show (match p == x with
      | true => true
      | false => List.elem p (xs ++ [p])) = true
    cases p == x with
    | true => rfl
    | false => exact ih

/-- After `trackRun`, the same (name, arguments) resubmission is flagged a
duplicate, with a non-empty reason. -/
theorem isDuplicate_after_track (d : Deduplicator) (name : String) (args : Json) :
    ((d.trackRun name args).isDuplicate name args).1 = true ∧
    ((d.trackRun name args).isDuplicate name args).2 ≠ "" := by
  have hc : ((d.trackRun name args).runs).contains (name, args) = true :=
    contains_append_pair d.runs (name, args)
  constructor <;> simp [Deduplicator.isDuplicate, hc]

/-- Evaluation of one UnTooled-path Ollama stream turn whose model output
parses to a declared-valid call: the call is executed and tracked when it
is no duplicate, and dropped — ending in a plain-text turn that resets the
"runs" set — when it is one. -/
theorem ollamaTurn_eval (parse : String → Option Json) (d : Deduplicator)
    (messages : List Msg) (functions : List ToolDef)
    (chunks fu : List (Option OllamaChunkMsg)) (lm : Msg) (cj : Json)
    (name : String) (args : Json)
    (hlastGet : (messages.filter fun m => m.role == "user" || m.role == "assistant").getLast?
      = some lm)
    (hlastRole : lm.role = "user")
    (hfn : 0 < functions.length)
    (hparse : parse (ollamaStreamText chunks) = some cj)
    (hcjnn : cj ≠ Json.null)
    (hname : cj.getStr "name" = some name)
    (hargs : cj.get "arguments" = some args)
    (hvalid : (validFuncCall cj functions).1 = true) :
    ollamaUntooledStreamTurn parse d messages functions chunks fu =
      (if (d.isDuplicate name args).1 then
        some (OllamaTurnResult.textResponse (ollamaFollowupText fu), d.resetRuns)
      else
        some (OllamaTurnResult.functionCall name args, d.trackRun name args)) := by
  have hsafe : safeJsonParse parse (ollamaStreamText chunks) Json.null = cj := by
    simp [safeJsonParse, hparse]
  cases hdup : (d.isDuplicate name args).1 with
  | true =>
    have hsfc : ollamaStreamingFunctionCall parse d messages functions chunks
        = some (none, none) := by
      simp only [ollamaStreamingFunctionCall, hlastGet, hsafe, hlastRole]
      simp only [hvalid, hname, hargs, Option.getD_some]
      simp [hdup, hlastRole]
    simp only [ollamaUntooledStreamTurn, hsfc]
    simp [hfn]
  | false =>
    have hsfc : ollamaStreamingFunctionCall parse d messages functions chunks
        = some (some ⟨name, args⟩, none) := by
      simp only [ollamaStreamingFunctionCall, hlastGet, hsafe, hlastRole]
      simp only [hvalid, hname, hargs, Option.getD_some]
      simp [hdup, hlastRole]
    simp only [ollamaUntooledStreamTurn, hsfc]
    simp [hfn]

/-- C9: on the Ollama emulation path, a fresh valid tool call is executed
and tracked; resubmitting the same (name, arguments) pair in the next turn
— with no intervening non-tool-call turn — is flagged as a duplicate with
a non-empty reason and dropped (the turn totals to a plain-text response,
nothing is thrown); that duplicate turn completes without a tool call, so
it resets the session "runs" set to empty, after which the very same call
is accepted and tracked again. -/
theorem c9_emulation_dedup_session (parse : String → Option Json) (d : Deduplicator)
    (messages : List Msg) (functions : List ToolDef)
    (chunks fu : List (Option OllamaChunkMsg)) (lm : Msg) (cj : Json)
    (name : String) (args : Json)
    (hlastGet : (messages.filter fun m => m.role == "user" || m.role == "assistant").getLast?
      = some lm)
    (hlastRole : lm.role = "user")
    (hfn : 0 < functions.length)
    (hparse : parse (ollamaStreamText chunks) = some cj)
    (hcjnn : cj ≠ Json.null)
    (hname : cj.getStr "name" = some name)
    (hargs : cj.get "arguments" = some args)
    (hvalid : (validFuncCall cj functions).1 = true)
    (hnew : (d.isDuplicate name args).1 = false) :
    ollamaUntooledStreamTurn parse d messages functions chunks fu =
      some (OllamaTurnResult.functionCall name args, d.trackRun name args) ∧
    ((d.trackRun name args).isDuplicate name args).1 = true ∧
    ((d.trackRun name args).isDuplicate name args).2 ≠ "" ∧
    ollamaUntooledStreamTurn parse (d.trackRun name args) messages functions chunks fu =
      some (OllamaTurnResult.textResponse (ollamaFollowupText fu),
        Deduplicator.resetRuns (d.trackRun name args)) ∧
    Deduplicator.resetRuns (d.trackRun name args) = ⟨[]⟩ ∧
    (Deduplicator.isDuplicate ⟨[]⟩ name args).1 = false ∧
    ollamaUntooledStreamTurn parse ⟨[]⟩ messages functions chunks fu =
      some (OllamaTurnResult.functionCall name args, Deduplicator.trackRun ⟨[]⟩ name args) := by
  have hdup := isDuplicate_after_track d name args
  refine ⟨?_, hdup.1, hdup.2, ?_, rfl, rfl, ?_⟩
  · rw [ollamaTurn_eval parse d messages functions chunks fu lm cj name args
      hlastGet hlastRole hfn hparse hcjnn hname hargs hvalid]
    simp [hnew]
  · rw [ollamaTurn_eval parse (d.trackRun name args) messages functions chunks fu lm cj name args
      hlastGet hlastRole hfn hparse hcjnn hname hargs hvalid]
    simp [hdup.1]
  · rw [ollamaTurn_eval parse ⟨[]⟩ messages functions chunks fu lm cj name args
      hlastGet hlastRole hfn hparse hcjnn hname hargs hvalid]
    simp [Deduplicator.isDuplicate, List.contains]

/-- The user message of the C9 witness session. -/
def c9UserMsg : Msg := { role := "user", content := Json.str "find x" }

/-- The JSON call object emitted by the model in the C9 witness session. -/
def c9CallJson : Json :=
  Json.obj [("name", Json.str "search"), ("arguments", Json.obj [("q", Json.str "x")])]

/-- The declared tool of the C9 witness session. -/
def c9Tool : ToolDef :=
  { name := "search"
    parameters := Json.obj [("properties", Json.obj [("q", Json.obj [])]),
      ("required", Json.arr [Json.str "q"])] }

/-- A parser recognising exactly the model output of the C9 witness. -/
def c9Parse : String → Option Json :=
  fun s => if s = "CALL" then some c9CallJson else none

/-- The streamed model output of the C9 witness (a single content chunk). -/
def c9Chunks : List (Option OllamaChunkMsg) := [some { content := "CALL" }]

/-- Witness for C9 at a concrete three-turn session: the call is executed
and tracked, its immediate resubmission is flagged a duplicate and ends in
a text turn that resets the runs set, and the same call is then accepted
again. -/
theorem c9_emulation_dedup_session_witness :
    ollamaUntooledStreamTurn c9Parse ⟨[]⟩ [c9UserMsg] [c9Tool] c9Chunks [] =
      some (OllamaTurnResult.functionCall "search" (Json.obj [("q", Json.str "x")]),
        Deduplicator.trackRun ⟨[]⟩ "search" (Json.obj [("q", Json.str "x")])) ∧
    ((Deduplicator.trackRun ⟨[]⟩ "search" (Json.obj [("q", Json.str "x")])).isDuplicate
      "search" (Json.obj [("q", Json.str "x")])).1 = true ∧
    ((Deduplicator.trackRun ⟨[]⟩ "search" (Json.obj [("q", Json.str "x")])).isDuplicate
      "search" (Json.obj [("q", Json.str "x")])).2 ≠ "" ∧
    ollamaUntooledStreamTurn c9Parse
        (Deduplicator.trackRun ⟨[]⟩ "search" (Json.obj [("q", Json.str "x")]))
        [c9UserMsg] [c9Tool] c9Chunks [] =
      some (OllamaTurnResult.textResponse (ollamaFollowupText []),
        Deduplicator.resetRuns
          (Deduplicator.trackRun ⟨[]⟩ "search" (Json.obj [("q", Json.str "x")]))) ∧
    Deduplicator.resetRuns
        (Deduplicator.trackRun ⟨[]⟩ "search" (Json.obj [("q", Json.str "x")])) = ⟨[]⟩ ∧
    (Deduplicator.isDuplicate ⟨[]⟩ "search" (Json.obj [("q", Json.str "x")])).1 = false ∧
    ollamaUntooledStreamTurn c9Parse ⟨[]⟩ [c9UserMsg] [c9Tool] c9Chunks [] =
      some (OllamaTurnResult.functionCall "search" (Json.obj [("q", Json.str "x")]),
        Deduplicator.trackRun ⟨[]⟩ "search" (Json.obj [("q", Json.str "x")])) :=
  c9_emulation_dedup_session c9Parse ⟨[]⟩ [c9UserMsg] [c9Tool] c9Chunks [] c9UserMsg
    c9CallJson "search" (Json.obj [("q", Json.str "x")])
    rfl rfl (by decide) rfl (fun h => Json.noConfusion h) rfl rfl rfl rfl

end ALLM
